import Mathlib

/-!
Shallow embedding of `src/uitk/events.cpp` (classes `EventFactoryFilter` and
`MouseTracking`).

Widgets are modelled as records carrying an identity and the dynamic
properties the code queries (`isDown`, popup-view visibility, slider-drag
state) together with their Qt class.  The host toolkit's observable state at
the moment an event is processed (the widget under the cursor, the active
window, the tracked parent's descendant list, the cursor position) is an
`Env`.  The tracker's member fields form a `TrackState`.  Every call the
code makes into a toolkit primitive (`releaseMouse`, `sendEvent`,
`postEvent`, `grabMouse`, slot invocation) and the handler rewrite performed
by `handleViewportWidget` is recorded as an `TkCall`; each operation returns
its successor state together with the list of actions it performed, in
program order.
-/

/-- The Qt classes the code distinguishes.  `otherButton` stands for a
`QAbstractButton` subclass other than `QPushButton` (e.g. `QCheckBox`);
`scrollArea` for a `QAbstractScrollArea` subclass; `plain` for any other
widget. -/
inductive WidgetClass where
  | pushButton
  | comboBox
  | slider
  | scrollBar
  | scrollArea
  | otherButton
  | plain
deriving DecidableEq

/-- A widget: an identity plus the properties the code reads.
`isDown` models `QAbstractButton::isDown()`, `viewVisible` models
`QComboBox::view()->isVisible()`, `sliderDown` models
`QAbstractSlider::isSliderDown()`. -/
structure Widget where
  wid : Nat
  cls : WidgetClass
  isDown : Bool
  viewVisible : Bool
  sliderDown : Bool
deriving DecidableEq

/-- Class names passed to `QObject::inherits` by the code. -/
inductive QtClassName where
  | QPushButton
  | QComboBox
  | QSlider
  | QScrollBar
  | QAbstractScrollArea
deriving DecidableEq

/-- Models `w->inherits(name)` for the class names the code uses. -/
def inheritsClass (w : Widget) (c : QtClassName) : Bool :=
  match c with
  | .QPushButton => w.cls == .pushButton
  | .QComboBox => w.cls == .comboBox
  | .QSlider => w.cls == .slider
  | .QScrollBar => w.cls == .scrollBar
  | .QAbstractScrollArea => w.cls == .scrollArea

/-- Models the success of `qobject_cast<QAbstractButton*>(w)`. -/
def isAbstractButton (w : Widget) : Bool :=
  w.cls == .pushButton || w.cls == .otherButton

/-- Numeric value of `QEvent::MouseButtonRelease`. -/
def QEventMouseButtonRelease : Nat := 3

/-- Numeric value of `QEvent::MouseMove`. -/
def QEventMouseMove : Nat := 5

/-- Numeric value of `QEvent::Enter`. -/
def QEventEnter : Nat := 10

/-- Numeric value of `QEvent::Leave`. -/
def QEventLeave : Nat := 11

/-- The data of an incoming `QEvent` the code reads: its numeric type, and
(for mouse events) the button. -/
structure QEventData where
  etype : Nat
  button : Nat
deriving DecidableEq

/-- The host toolkit's observable state while one event is processed:
`widgetAt` is `QApplication::widgetAt(QCursor::pos())`, `activeWindow` is
`QApplication::activeWindow()`, `children` is
`parent->findChildren<QWidget*>()`, `cursorPos` is `QCursor::pos()`. -/
structure Env where
  widgetAt : Option Widget
  activeWindow : Widget
  children : List Widget
  cursorPos : Int × Int
deriving DecidableEq

/-- The `MouseTracking` member fields `_prevMouseOver`, `_mouseOver`,
`_filteredWidgets` and `_widgets`. -/
structure TrackState where
  prevMouseOver : List Widget
  mouseOver : List Widget
  filteredWidgets : List Widget
  widgets : List Widget
deriving DecidableEq

/-- The state after the constructor runs: every container empty. -/
def initialState : TrackState := ⟨[], [], [], []⟩

/-- One call into a toolkit primitive, or the `mouseMoveEvent` handler
rewrite performed by `handleViewportWidget`. -/
inductive TkCall where
  | releaseMouse (w : Widget)
  | sendEvent (w : Widget) (etype : Nat)
  | postEvent (w : Widget) (button : Nat) (pos : Int × Int)
  | grabMouse (w : Widget)
  | setMouseMoveHandler (w : Widget)
  | invokeSlot (method : String) (obj : Option Widget)
deriving DecidableEq

/-- `MouseTracking::shouldCaptureMouse`: the conditions are tested in the
order of the `widgetConditions` vector; the first whose class test and
predicate both hold makes the function return `false`. -/
def shouldCaptureMouse (w : Widget) : Bool :=
  if inheritsClass w .QPushButton && !w.isDown then false
  else if inheritsClass w .QComboBox && !w.viewVisible then false
  else if inheritsClass w .QSlider && !w.sliderDown then false
  else if inheritsClass w .QScrollBar && !w.sliderDown then false
  else true

/-- `MouseTracking::getChildWidgets`: refresh `_widgets` from the parent's
descendants. -/
def getChildWidgets (env : Env) (st : TrackState) : TrackState :=
  { st with widgets := env.children }

/-- `MouseTracking::updateWidgetsUnderCursor`: refresh `_widgets`, then set
`_mouseOver` to the singleton holding the widget under the cursor when it is
one of the parent's descendants, and to the empty list otherwise. -/
def updateWidgetsUnderCursor (env : Env) (st : TrackState) : TrackState :=
  let st1 := getChildWidgets env st
  let mo : List Widget :=
    match env.widgetAt with
    | some t => if t ∈ st1.widgets then [t] else []
    | none => []
  { st1 with mouseOver := mo }

/-- `MouseTracking::releaseMouseForWidgets`: one `releaseMouse` call per
widget, in list order. -/
def releaseMouseForWidgets (ws : List Widget) : List TkCall :=
  ws.map TkCall.releaseMouse

/-- `MouseTracking::sendLeaveEvent`: `QApplication::sendEvent` with a Leave
event. -/
def sendLeaveEvent (w : Widget) : TkCall := TkCall.sendEvent w QEventLeave

/-- `MouseTracking::sendEnterEvent`: `QApplication::sendEvent` with an Enter
event. -/
def sendEnterEvent (w : Widget) : TkCall := TkCall.sendEvent w QEventEnter

/-- `MouseTracking::sendReleaseEvent`: `QApplication::postEvent` with a
`MouseButtonRelease` carrying the given button and the current cursor
position. -/
def sendReleaseEvent (env : Env) (w : Widget) (button : Nat) : TkCall :=
  TkCall.postEvent w button env.cursorPos

/-- `MouseTracking::handleMouseGrab`: when a widget lies under the cursor it
(or, if `shouldCaptureMouse` refuses, the active window) grabs the mouse;
otherwise the active window grabs. -/
def handleMouseGrab (env : Env) : List TkCall :=
  match env.widgetAt with
  | some t => [TkCall.grabMouse (if shouldCaptureMouse t then t else env.activeWindow)]
  | none => [TkCall.grabMouse env.activeWindow]

/-- The loop body of `MouseTracking::filterViewportWidgets` over the
`_widgets` list: a `QAbstractScrollArea` descendant not yet in
`_filteredWidgets` is inserted and handed to `handleViewportWidget`, which
rewrites its `mouseMoveEvent` handler. -/
def filterViewportAux : List Widget → List Widget → List Widget × List TkCall
  | [], filtered => (filtered, [])
  | w :: rest, filtered =>
    if inheritsClass w .QAbstractScrollArea = true ∧ w ∉ filtered then
      let r := filterViewportAux rest (filtered ++ [w])
      (r.1, TkCall.setMouseMoveHandler w :: r.2)
    else
      filterViewportAux rest filtered

/-- `MouseTracking::filterViewportWidgets`. -/
def filterViewportWidgets (st : TrackState) : TrackState × List TkCall :=
  let r := filterViewportAux st.widgets st.filteredWidgets
  ({ st with filteredWidgets := r.1 }, r.2)

/-- `MouseTracking::track`, in source order: release the mouse for the
widgets of the stored `_mouseOver` set, recompute the set under the cursor,
send Leave events to widgets that left, Enter events to widgets that
entered, reassign the mouse grab, replace `_prevMouseOver`, and finally
filter viewport widgets. -/
def track (env : Env) (st : TrackState) : TrackState × List TkCall :=
  let rel := releaseMouseForWidgets st.mouseOver
  let st1 := updateWidgetsUnderCursor env st
  let leaves :=
    (st1.prevMouseOver.filter (fun w => decide (w ∉ st1.mouseOver))).map sendLeaveEvent
  let enters :=
    (st1.mouseOver.filter (fun w => decide (w ∉ st1.prevMouseOver))).map sendEnterEvent
  let grabs := handleMouseGrab env
  let st2 := { st1 with prevMouseOver := st1.mouseOver }
  let r := filterViewportWidgets st2
  (r.1, rel ++ leaves ++ enters ++ grabs ++ r.2)

/-- The result of one `MouseTracking::eventFilter` call: the tracker state
after the call, the toolkit calls made, and the returned Bool. -/
structure MTResult where
  state : TrackState
  actions : List TkCall
  consumed : Bool
deriving DecidableEq

/-- `MouseTracking::eventFilter`: dispatch on the event type, then return
`QObject::eventFilter(obj, event)`, whose base implementation returns
`false`. -/
def mouseTrackingEventFilter (env : Env) (st : TrackState) (e : QEventData) : MTResult :=
  if e.etype = QEventMouseMove then
    let r := track env st
    ⟨r.1, r.2, false⟩
  else if e.etype = QEventMouseButtonRelease then
    match env.widgetAt with
    | some t =>
      if isAbstractButton t && !t.isDown then
        ⟨st, [sendReleaseEvent env t e.button], false⟩
      else ⟨st, [], false⟩
    | none => ⟨st, [], false⟩
  else ⟨st, [], false⟩

/-- The character `QString::number` renders for one decimal digit value. -/
def digitChar (d : Nat) : Char := Char.ofNat (48 + d % 10)

/-- Models `QString::number(n).toStdString()` for a non-negative value: the
decimal rendering of `n`, most significant digit first. -/
def natDecimalChars (n : Nat) : List Char :=
  if n = 0 then ['0'] else (Nat.digits 10 n).reverse.map digitChar

/-- Matching of the anchored pattern whose body is
dot-star, backslash-dot, a bracketed capital range, a bracketed negation of
capital B starred, an optional literal Button group, and a trailing
dot-star (the `regexPattern` of `EventFactoryFilter::formatEventName`).
The two trailing groups match every string, so the pattern accepts exactly
the strings holding a literal dot directly followed by a capital letter,
and the greedy leading dot-star places the match at the last such pair.
This function returns that capital letter and the suffix after it, or
`none` when the pattern rejects. -/
def findLastDotUpper : List Char → Option (Char × List Char)
  | [] => none
  | [_] => none
  | a :: b :: rest =>
    match findLastDotUpper (b :: rest) with
    | some r => some r
    | none => if a = '.' ∧ b.isUpper = true then some (b, rest) else none

/-- The optional literal Button group of the pattern: consume the six
characters when present. -/
def dropButtonLit : List Char → List Char
  | 'B' :: 'u' :: 't' :: 't' :: 'o' :: 'n' :: tail => tail
  | l => l

/-- `EventFactoryFilter::formatEventName`: render the numeric event type in
decimal, match it against `regexPattern`; on a match assemble the name from
the three capture groups, otherwise return the prefix followed by
`"event"`. -/
def formatEventName (eventType : Nat) (pfx : String) : String :=
  let s := natDecimalChars eventType
  match findLastDotUpper s with
  | some r =>
    let m2 := r.2.takeWhile (fun c => c != 'B')
    let afterM2 := r.2.dropWhile (fun c => c != 'B')
    let m3 := dropButtonLit afterM2
    pfx ++ String.mk [r.1.toLower] ++ String.mk m2 ++ String.mk m3 ++ "Event"
  | none => pfx ++ "event"

/-- Models `QMetaObject::indexOfSlot` over the forward-target's slot
signature list: the index of the signature, or `-1` when absent. -/
def indexOfSlot : List String → String → Int
  | [], _ => -1
  | s :: rest, sig =>
    if s = sig then 0
    else
      let r := indexOfSlot rest sig
      if r < 0 then -1 else r + 1

/-- The result of one `EventFactoryFilter::eventFilter` call. -/
structure EFResult where
  actions : List TkCall
  consumed : Bool
deriving DecidableEq

/-- `EventFactoryFilter::eventFilter`: format the method name, look for a
slot with signature `name(QWidget*,QEvent*)` on the forward target; when
found, invoke it with the watched widget and the event and return `true`,
otherwise return `false`. -/
def eventFactoryFilter (slots : List String) (pfx : String) (obj : Option Widget)
    (e : QEventData) : EFResult :=
  let methodName := formatEventName e.etype pfx
  if indexOfSlot slots (methodName ++ "(QWidget*,QEvent*)") ≥ 0 then
    ⟨[TkCall.invokeSlot methodName obj], true⟩
  else ⟨[], false⟩

/-- The set `updateWidgetsUnderCursor` computes, written directly over the
environment: the widget under the cursor when it is a descendant of the
tracked parent, nothing otherwise. -/
def hitTest (env : Env) : List Widget :=
  match env.widgetAt with
  | some t => if t ∈ env.children then [t] else []
  | none => []

/-- Written from the words of the spec claim about mouse-grab handoff: the
top widget under the cursor grabs, unless it is an unpressed push button, a
combo box whose popup view is not visible, or a slider or scroll bar whose
slider is not being dragged — in those cases, and when no widget lies under
the cursor, the active window grabs. -/
def specGrabTarget (env : Env) : Widget :=
  match env.widgetAt with
  | none => env.activeWindow
  | some t =>
    if (t.cls = .pushButton ∧ t.isDown = false) ∨
        (t.cls = .comboBox ∧ t.viewVisible = false) ∨
        ((t.cls = .slider ∨ t.cls = .scrollBar) ∧ t.sliderDown = false) then
      env.activeWindow
    else t

/-- Recognizes a `grabMouse` call in a trace. -/
def isGrabAction : TkCall → Bool
  | .grabMouse _ => true
  | _ => false

/-- Recognizes the calls into host-toolkit primitives; the
`handleViewportWidget` handler rewrite is the one action that is not such a
call. -/
def isToolkitPrimitive : TkCall → Bool
  | .setMouseMoveHandler _ => false
  | _ => true

/-- A plain widget standing for the application's active window. -/
def wActive : Widget := ⟨0, .plain, false, false, false⟩

/-- A scroll-area descendant of the tracked parent. -/
def wArea : Widget := ⟨1, .scrollArea, false, false, false⟩

/-- An unpressed push-button descendant of the tracked parent. -/
def wBtn : Widget := ⟨2, .pushButton, false, false, false⟩

/-- A toolkit state with the cursor over the push button. -/
def envBtn : Env := ⟨some wBtn, wActive, [wBtn, wArea], (4, 5)⟩

/-- A toolkit state with no widget under the cursor. -/
def envEmpty : Env := ⟨none, wActive, [wArea], (0, 0)⟩

/-- A mouse-move event. -/
def evMove : QEventData := ⟨QEventMouseMove, 0⟩

/-- A mouse-button-release event for the left button. -/
def evRelease : QEventData := ⟨QEventMouseButtonRelease, 1⟩

/-! ## Helper lemmas -/

/-- Unfolded form of `updateWidgetsUnderCursor`. -/
theorem updateWidgetsUnderCursor_eq (env : Env) (st : TrackState) :
    updateWidgetsUnderCursor env st =
      { st with widgets := env.children, mouseOver := hitTest env } := by
  unfold updateWidgetsUnderCursor getChildWidgets hitTest
  cases env.widgetAt <;> rfl

/-- The state `track` leaves behind. -/
theorem track_state (env : Env) (st : TrackState) :
    (track env st).1 =
      { prevMouseOver := hitTest env, mouseOver := hitTest env,
        filteredWidgets := (filterViewportAux env.children st.filteredWidgets).1,
        widgets := env.children } := by
  unfold track filterViewportWidgets
  rw [updateWidgetsUnderCursor_eq]

/-- The trace `track` emits, with the recomputed under-cursor set written as
`hitTest env`. -/
theorem track_trace (env : Env) (st : TrackState) :
    (track env st).2 =
      releaseMouseForWidgets st.mouseOver
        ++ (st.prevMouseOver.filter (fun w => decide (w ∉ hitTest env))).map sendLeaveEvent
        ++ ((hitTest env).filter (fun w => decide (w ∉ st.prevMouseOver))).map sendEnterEvent
        ++ handleMouseGrab env
        ++ (filterViewportAux env.children st.filteredWidgets).2 := by
  unfold track filterViewportWidgets
  rw [updateWidgetsUnderCursor_eq]

/-- Every action `filterViewportAux` emits is a handler rewrite on a
scroll-area widget taken from the list and not yet filtered. -/
theorem filterViewportAux_mem (l f : List Widget) (a : TkCall)
    (h : a ∈ (filterViewportAux l f).2) :
    ∃ w, a = TkCall.setMouseMoveHandler w ∧
      inheritsClass w .QAbstractScrollArea = true ∧ w ∈ l ∧ w ∉ f := by
  induction l generalizing f with
  | nil => simp [filterViewportAux] at h
  | cons w rest ih =>
    rw [filterViewportAux] at h
    split at h
    · rename_i hcond
      rcases List.mem_cons.mp h with h1 | h2
      · exact ⟨w, h1, hcond.1, List.mem_cons_self _ _, hcond.2⟩
      · obtain ⟨w', hw1, hw2, hw3, hw4⟩ := ih _ h2
        refine ⟨w', hw1, hw2, List.mem_cons_of_mem _ hw3, fun hf => hw4 ?_⟩
        exact List.mem_append_left _ hf
    · obtain ⟨w', hw1, hw2, hw3, hw4⟩ := ih _ h
      exact ⟨w', hw1, hw2, List.mem_cons_of_mem _ hw3, hw4⟩

/-- A `sendEvent` action never appears among the viewport-filter actions. -/
theorem sendEvent_not_mem_filterViewportAux (w : Widget) (n : Nat) (l f : List Widget) :
    TkCall.sendEvent w n ∉ (filterViewportAux l f).2 := by
  intro h
  obtain ⟨w', hw', _⟩ := filterViewportAux_mem l f _ h
  simp at hw'

/-- The grab decision of the code agrees with the spec's description. -/
theorem handleMouseGrab_eq (env : Env) :
    handleMouseGrab env = [TkCall.grabMouse (specGrabTarget env)] := by
  unfold handleMouseGrab specGrabTarget
  cases env.widgetAt with
  | none => rfl
  | some t =>
    obtain ⟨i, c, d, v, s⟩ := t
    cases c <;> cases d <;> cases v <;> cases s <;>
      simp [shouldCaptureMouse, inheritsClass]

/-- The recomputed under-cursor set never holds more than one widget. -/
theorem hitTest_length (env : Env) : (hitTest env).length ≤ 1 := by
  rcases h : env.widgetAt with _ | t <;> simp only [hitTest, h]
  · simp
  · split <;> simp

/-- Every character `QString::number` renders for a decimal digit lies
between the characters for zero and nine, so it is never a dot. -/
theorem digitChar_ne_dot (d : Nat) : digitChar d ≠ '.' := by
  unfold digitChar
  have h : d % 10 < 10 := Nat.mod_lt _ (by decide)
  set r := d % 10 with hr
  interval_cases r <;> decide

/-- No character of the decimal rendering of a number is a dot. -/
theorem mem_natDecimalChars_ne_dot (n : Nat) (c : Char)
    (hc : c ∈ natDecimalChars n) : c ≠ '.' := by
  unfold natDecimalChars at hc
  split at hc
  · rcases List.mem_singleton.mp hc with rfl
    decide
  · rcases List.mem_map.mp hc with ⟨d, _, rfl⟩
    exact digitChar_ne_dot d

/-- The pattern rejects every string without a dot. -/
theorem findLastDotUpper_eq_none (l : List Char) (h : ∀ c ∈ l, c ≠ '.') :
    findLastDotUpper l = none := by
  induction l with
  | nil => rfl
  | cons a rest ih =>
    cases rest with
    | nil => rfl
    | cons b r2 =>
      have ha : a ≠ '.' := h a (List.mem_cons_self _ _)
      rw [findLastDotUpper, ih (fun c hc => h c (List.mem_cons_of_mem _ hc))]
      simp [ha]

/-- On every numeric event type the regular expression fails, so
`formatEventName` lands in its fallback branch. -/
theorem formatEventName_eq (n : Nat) (pfx : String) :
    formatEventName n pfx = pfx ++ "event" := by
  have hnone :=
    findLastDotUpper_eq_none (natDecimalChars n)
      (fun c hc => mem_natDecimalChars_ne_dot n c hc)
  simp only [formatEventName, hnone]

/-- `indexOfSlot` reports a non-negative index exactly for present
signatures. -/
theorem indexOfSlot_nonneg_iff (l : List String) (sig : String) :
    indexOfSlot l sig ≥ 0 ↔ sig ∈ l := by
  induction l with
  | nil => simp [indexOfSlot]
  | cons s rest ih =>
    rw [indexOfSlot]
    by_cases hs : s = sig
    · subst hs
      simp
    · rw [if_neg hs]
      by_cases hr : indexOfSlot rest sig < 0
      · rw [if_pos hr]
        simp only [List.mem_cons]
        constructor
        · intro h10
          omega
        · rintro (rfl | hmem)
          · exact absurd rfl hs
          · exact absurd (ih.mpr hmem) (by omega)
      · rw [if_neg hr]
        simp only [List.mem_cons]
        constructor
        · intro _
          exact Or.inr (ih.mp (by omega))
        · intro _
          omega

/-! ## Claim theorems -/

/-- C4: for every event type and every prefix, `formatEventName` returns the
prefix followed by the literal string "event", because the regular
expression demands a dot followed by an uppercase letter while the matched
string is the decimal rendering of the numeric event type; consequently
`EventFactoryFilter` can only ever dispatch to a slot literally named
prefix-plus-"event". -/
theorem C4_formatEventName_constant (pfx : String) (e : QEventData)
    (slots : List String) (obj : Option Widget) :
    formatEventName e.etype pfx = pfx ++ "event" ∧
      ((eventFactoryFilter slots pfx obj e).actions = [] ∨
        (eventFactoryFilter slots pfx obj e).actions =
          [TkCall.invokeSlot (pfx ++ "event") obj]) := by
  refine ⟨formatEventName_eq e.etype pfx, ?_⟩
  simp only [eventFactoryFilter]
  rw [formatEventName_eq e.etype pfx]
  split
  · exact Or.inr rfl
  · exact Or.inl rfl

/-- C7: `EventFactoryFilter::eventFilter` consumes an event exactly when the
forward target declares a slot whose normalized signature is the formatted
event name applied to `(QWidget*,QEvent*)`; in that case it invokes that
slot with the watched widget and the event, and otherwise it performs
nothing and returns false. -/
theorem C7_eventFactory_dispatch (slots : List String) (pfx : String)
    (obj : Option Widget) (e : QEventData) :
    ((eventFactoryFilter slots pfx obj e).consumed = true ↔
        (formatEventName e.etype pfx ++ "(QWidget*,QEvent*)") ∈ slots) ∧
      ((eventFactoryFilter slots pfx obj e).consumed = true →
        (eventFactoryFilter slots pfx obj e).actions =
          [TkCall.invokeSlot (formatEventName e.etype pfx) obj]) ∧
      ((eventFactoryFilter slots pfx obj e).consumed = false →
        (eventFactoryFilter slots pfx obj e).actions = []) := by
  simp only [eventFactoryFilter]
  split
  · rename_i hidx
    have hmem := (indexOfSlot_nonneg_iff _ _).mp hidx
    simp [hmem]
  · rename_i hidx
    have hmem : formatEventName e.etype pfx ++ "(QWidget*,QEvent*)" ∉ slots :=
      fun hm => hidx ((indexOfSlot_nonneg_iff _ _).mpr hm)
    simp [hmem]

/-- C9: on an event that is neither a mouse move nor a mouse-button release,
`MouseTracking::eventFilter` performs no toolkit call, leaves every tracking
field unchanged, and returns false. -/
theorem C9_other_events_inert (env : Env) (st : TrackState) (e : QEventData)
    (h1 : e.etype ≠ QEventMouseMove) (h2 : e.etype ≠ QEventMouseButtonRelease) :
    mouseTrackingEventFilter env st e = ⟨st, [], false⟩ := by
  unfold mouseTrackingEventFilter
  rw [if_neg h1, if_neg h2]

/-- C9 witness: a paint event (numeric type 12) is processed without any
effect. -/
theorem C9_other_events_inert_witness :
    mouseTrackingEventFilter envBtn initialState ⟨12, 0⟩ =
      ⟨initialState, [], false⟩ :=
  C9_other_events_inert envBtn initialState ⟨12, 0⟩ (by decide) (by decide)

/-- C10: `MouseTracking::eventFilter` always returns the base-class result,
false, so the filter never consumes an event. -/
theorem C10_never_consumes (env : Env) (st : TrackState) (e : QEventData) :
    (mouseTrackingEventFilter env st e).consumed = false := by
  unfold mouseTrackingEventFilter
  split
  · rfl
  · split
    · split
      · split <;> rfl
      · rfl
    · rfl

/-- C6: within one mouse-move, `track` first releases the mouse for the
under-cursor set stored from the previous move, then recomputes the set by
hit-testing, then sends Leave events, then Enter events, then reassigns the
mouse grab, and then replaces the previous under-cursor set with the new
one; the trace below lists those toolkit calls in exactly that order, with
the Leave and Enter recipients computed from the recomputed set. -/
theorem C6_track_order (env : Env) (st : TrackState) :
    (track env st).2 =
      releaseMouseForWidgets st.mouseOver
        ++ (st.prevMouseOver.filter (fun w => decide (w ∉ hitTest env))).map sendLeaveEvent
        ++ ((hitTest env).filter (fun w => decide (w ∉ st.prevMouseOver))).map sendEnterEvent
        ++ handleMouseGrab env
        ++ (filterViewportAux env.children st.filteredWidgets).2 ∧
      (track env st).1.prevMouseOver = hitTest env ∧
      (track env st).1.mouseOver = hitTest env := by
  refine ⟨track_trace env st, ?_, ?_⟩ <;> rw [track_state]

/-- C1: on every mouse move, a Leave event is sent through the toolkit's
`sendEvent` exactly to the widgets of the previous under-cursor set that are
not in the recomputed one, and an Enter event exactly to the widgets of the
recomputed set that are not in the previous one; a widget in both sets
receives neither. -/
theorem C1_enter_leave_events (env : Env) (st : TrackState) (w : Widget) :
    (TkCall.sendEvent w QEventLeave ∈ (track env st).2 ↔
        w ∈ st.prevMouseOver ∧ w ∉ (track env st).1.mouseOver) ∧
      (TkCall.sendEvent w QEventEnter ∈ (track env st).2 ↔
        w ∈ (track env st).1.mouseOver ∧ w ∉ st.prevMouseOver) := by
  rw [track_trace, track_state]
  constructor <;>
    simp [releaseMouseForWidgets, sendLeaveEvent, sendEnterEvent,
      handleMouseGrab_eq, QEventEnter, QEventLeave,
      sendEvent_not_mem_filterViewportAux, List.mem_filter, and_comm]

/-- C2: each processed mouse-move makes exactly one `grabMouse` call, whose
target is the top widget under the cursor, except that the active window
grabs instead when that widget is an unpressed push button, a combo box
whose popup view is not visible, or a slider or scroll bar whose slider is
not being dragged, and also when no widget lies under the cursor. -/
theorem C2_grab_target (env : Env) (st : TrackState) (e : QEventData)
    (h : e.etype = QEventMouseMove) :
    ((mouseTrackingEventFilter env st e).actions.filter isGrabAction) =
      [TkCall.grabMouse (specGrabTarget env)] := by
  have hrel : (releaseMouseForWidgets st.mouseOver).filter isGrabAction = [] := by
    simp only [releaseMouseForWidgets, List.filter_eq_nil_iff, List.mem_map]
    rintro a ⟨x, _, rfl⟩
    simp [isGrabAction]
  have hleaves :
      ((st.prevMouseOver.filter (fun w => decide (w ∉ hitTest env))).map
          sendLeaveEvent).filter isGrabAction = [] := by
    simp only [List.filter_eq_nil_iff, List.mem_map]
    rintro a ⟨x, _, rfl⟩
    simp [sendLeaveEvent, isGrabAction]
  have henters :
      (((hitTest env).filter (fun w => decide (w ∉ st.prevMouseOver))).map
          sendEnterEvent).filter isGrabAction = [] := by
    simp only [List.filter_eq_nil_iff, List.mem_map]
    rintro a ⟨x, _, rfl⟩
    simp [sendEnterEvent, isGrabAction]
  have hfv :
      ((filterViewportAux env.children st.filteredWidgets).2).filter
        isGrabAction = [] := by
    rw [List.filter_eq_nil_iff]
    intro a ha
    obtain ⟨w', rfl, _⟩ := filterViewportAux_mem _ _ _ ha
    simp [isGrabAction]
  simp only [mouseTrackingEventFilter, h, if_pos]
  rw [track_trace, handleMouseGrab_eq]
  simp only [List.filter_append, hrel, hleaves, henters, hfv]
  simp [isGrabAction]

/-- C2 witness: with the cursor over an unpressed push button the single
grab goes to the active window. -/
theorem C2_grab_target_witness :
    ((mouseTrackingEventFilter envBtn initialState evMove).actions.filter
        isGrabAction) =
      [TkCall.grabMouse (specGrabTarget envBtn)] :=
  C2_grab_target envBtn initialState evMove rfl

/-- The actions of the release branch of `MouseTracking::eventFilter` when a
widget lies under the cursor. -/
theorem mouseTrackingRelease_actions_some (env : Env) (st : TrackState)
    (e : QEventData) (u : Widget) (h : e.etype = QEventMouseButtonRelease)
    (hw : env.widgetAt = some u) :
    (mouseTrackingEventFilter env st e).actions =
      if isAbstractButton u && !u.isDown then [sendReleaseEvent env u e.button]
      else [] := by
  unfold mouseTrackingEventFilter
  rw [h, if_neg (by decide : ¬(QEventMouseButtonRelease = QEventMouseMove)),
    if_pos rfl, hw]
  split
  · rename_i t2 heq2
    injection heq2 with hu
    subst hu
    split <;> rfl
  · rename_i heq2
    simp at heq2

/-- The actions of the release branch of `MouseTracking::eventFilter` when no
widget lies under the cursor. -/
theorem mouseTrackingRelease_actions_none (env : Env) (st : TrackState)
    (e : QEventData) (h : e.etype = QEventMouseButtonRelease)
    (hw : env.widgetAt = none) :
    (mouseTrackingEventFilter env st e).actions = [] := by
  unfold mouseTrackingEventFilter
  rw [h, if_neg (by decide : ¬(QEventMouseButtonRelease = QEventMouseMove)),
    if_pos rfl, hw]

/-- C3: on a mouse-button-release event, a synthetic release carrying the
event's button and the current cursor position is posted to the widget under
the cursor exactly when that widget exists, casts to `QAbstractButton`, and
reports `isDown()` false; otherwise nothing is posted. -/
theorem C3_synthetic_release (env : Env) (st : TrackState) (e : QEventData)
    (t : Widget) (b : Nat) (p : Int × Int)
    (h : e.etype = QEventMouseButtonRelease) :
    TkCall.postEvent t b p ∈ (mouseTrackingEventFilter env st e).actions ↔
      env.widgetAt = some t ∧ isAbstractButton t = true ∧ t.isDown = false ∧
        b = e.button ∧ p = env.cursorPos := by
  cases hw : env.widgetAt with
  | none =>
    rw [mouseTrackingRelease_actions_none env st e h hw]
    simp
  | some u =>
    rw [mouseTrackingRelease_actions_some env st e u h hw]
    constructor
    · intro hmem
      split at hmem
      · rename_i hcond
        rw [Bool.and_eq_true, Bool.not_eq_true'] at hcond
        have heq := List.mem_singleton.mp hmem
        rw [sendReleaseEvent] at heq
        injection heq with h1 h2 h3
        subst h1
        subst h2
        subst h3
        exact ⟨rfl, hcond.1, hcond.2, rfl, rfl⟩
      · simp at hmem
    · rintro ⟨hsome, habs, hdown, hb, hp⟩
      injection hsome with hu
      subst hu
      subst hb
      subst hp
      simp [habs, hdown, sendReleaseEvent]

/-- C3 witness: with the cursor over an unpressed push button, the release
of button 1 at cursor position (4, 5) is synthesized. -/
theorem C3_synthetic_release_witness :
    TkCall.postEvent wBtn 1 (4, 5) ∈
        (mouseTrackingEventFilter envBtn initialState evRelease).actions ↔
      envBtn.widgetAt = some wBtn ∧ isAbstractButton wBtn = true ∧
        wBtn.isDown = false ∧ 1 = evRelease.button ∧
        (4, 5) = envBtn.cursorPos :=
  C3_synthetic_release envBtn initialState evRelease wBtn 1 (4, 5) rfl

/-- C5: the under-cursor set never holds more than one widget: it starts
empty, stays of length at most one across every processed event, and after a
mouse move it is exactly the singleton of the widget `widgetAt` reports when
that widget is a descendant of the tracked parent, and empty otherwise. -/
theorem C5_at_most_one_under_cursor (env : Env) (st : TrackState)
    (e : QEventData) (h : st.mouseOver.length ≤ 1) :
    (mouseTrackingEventFilter env st e).state.mouseOver.length ≤ 1 ∧
      (e.etype = QEventMouseMove →
        (mouseTrackingEventFilter env st e).state.mouseOver = hitTest env) ∧
      initialState.mouseOver = [] := by
  by_cases h5 : e.etype = QEventMouseMove
  · have hstate : (mouseTrackingEventFilter env st e).state = (track env st).1 := by
      unfold mouseTrackingEventFilter
      rw [h5, if_pos rfl]
    rw [hstate, track_state]
    exact ⟨hitTest_length env, fun _ => rfl, rfl⟩
  · have hstate : (mouseTrackingEventFilter env st e).state = st := by
      unfold mouseTrackingEventFilter
      rw [if_neg h5]
      by_cases h3 : e.etype = QEventMouseButtonRelease
      · rw [if_pos h3]
        split
        · split <;> rfl
        · rfl
      · rw [if_neg h3]
    rw [hstate]
    exact ⟨h, fun hmove => absurd hmove h5, rfl⟩

/-- C5 witness: processing a mouse move from the empty initial state over an
unpressed push button. -/
theorem C5_at_most_one_under_cursor_witness :
    (mouseTrackingEventFilter envBtn initialState evMove).state.mouseOver.length ≤ 1 ∧
      (evMove.etype = QEventMouseMove →
        (mouseTrackingEventFilter envBtn initialState evMove).state.mouseOver =
          hitTest envBtn) ∧
      initialState.mouseOver = [] :=
  C5_at_most_one_under_cursor envBtn initialState evMove (by decide)

/-- C8 counterexample: processing a mouse move with a scroll-area descendant
rewrites that widget's own `mouseMoveEvent` handler, an effect that is not a
call into a host-toolkit primitive, contradicting the claim that no widget's
own handlers are rewritten. -/
theorem C8_counterexample :
    TkCall.setMouseMoveHandler wArea ∈
        (mouseTrackingEventFilter envEmpty initialState evMove).actions ∧
      isToolkitPrimitive (TkCall.setMouseMoveHandler wArea) = false := by
  constructor
  · decide
  · rfl

/-- C8 (amended): aside from updating the tracker's own fields, every effect
of processing an event is either a call into a host-toolkit primitive or the
`mouseMoveEvent` handler rewrite that `handleViewportWidget` performs on a
scroll-area descendant not yet in the filtered set. -/
theorem C8_effects_amended (env : Env) (st : TrackState) (e : QEventData)
    (a : TkCall) (h : a ∈ (mouseTrackingEventFilter env st e).actions) :
    isToolkitPrimitive a = true ∨
      ∃ w, a = TkCall.setMouseMoveHandler w ∧
        inheritsClass w .QAbstractScrollArea = true ∧ w ∈ env.children ∧
        w ∉ st.filteredWidgets := by
  by_cases h5 : e.etype = QEventMouseMove
  · have hact : (mouseTrackingEventFilter env st e).actions = (track env st).2 := by
      unfold mouseTrackingEventFilter
      rw [h5, if_pos rfl]
    rw [hact, track_trace] at h
    simp only [List.mem_append] at h
    rcases h with ((((h1 | h2) | h3) | h4) | h5v)
    · rw [releaseMouseForWidgets] at h1
      obtain ⟨x, _, rfl⟩ := List.mem_map.mp h1
      exact Or.inl rfl
    · obtain ⟨x, _, rfl⟩ := List.mem_map.mp h2
      exact Or.inl rfl
    · obtain ⟨x, _, rfl⟩ := List.mem_map.mp h3
      exact Or.inl rfl
    · rw [handleMouseGrab_eq] at h4
      rcases List.mem_singleton.mp h4 with rfl
      exact Or.inl rfl
    · exact Or.inr (filterViewportAux_mem _ _ _ h5v)
  · by_cases h3 : e.etype = QEventMouseButtonRelease
    · cases hw : env.widgetAt with
      | none =>
        rw [mouseTrackingRelease_actions_none env st e h3 hw] at h
        simp at h
      | some u =>
        rw [mouseTrackingRelease_actions_some env st e u h3 hw] at h
        split at h
        · rcases List.mem_singleton.mp h with rfl
          exact Or.inl rfl
        · simp at h
    · have hact : (mouseTrackingEventFilter env st e).actions = [] := by
        unfold mouseTrackingEventFilter
        rw [if_neg h5, if_neg h3]
      rw [hact] at h
      simp at h

/-- C8 amended-claim witness: the handler rewrite emitted for the scroll
area is covered by the amended statement's second disjunct. -/
theorem C8_effects_amended_witness :
    isToolkitPrimitive (TkCall.setMouseMoveHandler wArea) = true ∨
      ∃ w, TkCall.setMouseMoveHandler wArea = TkCall.setMouseMoveHandler w ∧
        inheritsClass w .QAbstractScrollArea = true ∧ w ∈ envEmpty.children ∧
        w ∉ initialState.filteredWidgets :=
  C8_effects_amended envEmpty initialState evMove
    (TkCall.setMouseMoveHandler wArea) (by decide)
